import Mathlib

/-!
Shallow embedding of the offline-first note synchronization engine of the
miniprompt (Keep clone) repository.

The repository contains several snapshots of the same service:

* `src/App.tsx` (second embedded document) — the current `notesService` built on
  IndexedDB, whose notes carry both `createdAt` and `updatedAt`, with a
  last-writer-wins pull merge (`syncFromSupabase`) and a queue-draining push
  (`syncToSupabase`).
* `src/services/notesService.ts` — a legacy variant (namespace `Legacy` below)
  whose notes carry only `createdAt`, whose pull replaces the whole local store
  by the remote set, and whose `updateNote` rewrites `createdAt`.
* `src/unnamed/part_002` — an IndexedDB service whose sync queue is keyed by
  `Date.now()` and written with `put` (namespace `IDBPut` below), and whose
  `catch` blocks swallow initialization failures.
* `src/unnamed/part_003` (first document) — an IndexedDB service whose sync
  queue uses an auto-incrementing key and `add` (namespace `IDBAuto` below).

The IndexedDB `notes` object store is keyed by `id` (`keyPath: 'id'`), so the
local Entity Store is modelled as a `List Note` in which `put` upserts by `id`.
JavaScript `Date.now()` calls are modelled by explicit `Nat` parameters, one
per call site, in source order.  An `await`ed remote call that throws
(`RemoteUnavailable`) is modelled by a boolean oracle.
-/

/-- A note record of the current variant (`Note` in `src/types` as used by the
`App.tsx` service): `id`, `title`, `content`, `color`, `createdAt`,
`updatedAt`. -/
structure Note where
  id : String
  title : String
  content : String
  color : String
  createdAt : Nat
  updatedAt : Nat
deriving DecidableEq, Repr

/-- Embeds `indexedDBService.saveNote` — `store.put(note)` on an object store with
`keyPath: 'id'`: replace the record with the same `id` if present, otherwise
append. -/
def saveNote (st : List Note) (n : Note) : List Note :=
  if st.any (fun m => m.id == n.id) then
    st.map (fun m => if m.id == n.id then n else m)
  else
    st ++ [n]

/-- Embeds `indexedDBService.deleteNote` — `store.delete(id)`: remove the record with
that `id` (idempotent). -/
def deleteNote (st : List Note) (id : String) : List Note :=
  st.filter (fun m => !(m.id == id))

/-- Embeds `indexedDBService.getAllNotes` — `store.getAll()` followed by
`notes.sort((a, b) => b.createdAt - a.createdAt)`: the stored records ordered
by `createdAt` descending (stable). -/
def getAllNotes (st : List Note) : List Note :=
  st.mergeSort (fun a b => decide (b.createdAt ≤ a.createdAt))

theorem mem_saveNote_self (st : List Note) (n : Note) : n ∈ saveNote st n := by
  unfold saveNote
  by_cases h : st.any (fun m => m.id == n.id)
  · simp only [h, if_pos]
    rcases List.any_eq_true.mp h with ⟨m, hm, hid⟩
    exact List.mem_map.mpr ⟨m, hm, by simp [hid]⟩
  · simp [h]

theorem mem_getAllNotes (st : List Note) (n : Note) :
    n ∈ getAllNotes st ↔ n ∈ st := by
  unfold getAllNotes
  exact (List.mergeSort_perm st _).mem_iff

theorem beq_id_false {a b : String} (h : a ≠ b) : (a == b) = false := by
  cases hab : a == b
  · rfl
  · exact absurd (by simpa using hab) h

theorem find?_cons_true {p : Note → Bool} {m : Note} (l : List Note)
    (h : p m = true) : List.find? p (m :: l) = some m := by
  simp [List.find?, h]

theorem find?_cons_false {p : Note → Bool} {m : Note} (l : List Note)
    (h : p m = false) : List.find? p (m :: l) = List.find? p l := by
  simp [List.find?, h]

theorem find?_map_upsert_self (n : Note) :
    ∀ st : List Note,
      (st.map (fun m => if m.id == n.id then n else m)).find?
          (fun m => m.id == n.id) =
        (st.find? (fun m => m.id == n.id)).map (fun _ => n)
  | [] => by simp
  | m :: rest => by
    rw [List.map_cons]
    by_cases hm : (m.id == n.id) = true
    · rw [if_pos hm, find?_cons_true _ (by simp),
        find?_cons_true _ hm, Option.map_some']
    · rw [Bool.not_eq_true] at hm
      rw [if_neg (by simp [hm]), find?_cons_false _ hm, find?_cons_false _ hm]
      exact find?_map_upsert_self n rest

theorem find?_append_one_self (n : Note) (st : List Note) :
    (st ++ [n]).find? (fun m => m.id == n.id) =
      some ((st.find? (fun m => m.id == n.id)).getD n) := by
  induction st with
  | nil => simp [List.find?]
  | cons m rest ih =>
    by_cases hm : (m.id == n.id) = true
    · rw [List.cons_append, find?_cons_true _ hm, find?_cons_true _ hm]
      rfl
    · rw [Bool.not_eq_true] at hm
      rw [List.cons_append, find?_cons_false _ hm, find?_cons_false _ hm]
      exact ih

/-- After `saveNote st n`, looking the store up at key `n.id` yields `n`. -/
theorem find?_saveNote_self (st : List Note) (n : Note) :
    (saveNote st n).find? (fun m => m.id == n.id) = some n := by
  unfold saveNote
  by_cases h : st.any (fun m => m.id == n.id)
  · rw [if_pos h, find?_map_upsert_self]
    cases hfind : st.find? (fun m => m.id == n.id) with
    | some w => rw [Option.map_some']
    | none =>
      rcases List.any_eq_true.mp h with ⟨m, hm, hid⟩
      exact absurd hid (by simpa using List.find?_eq_none.mp hfind m hm)
  · rw [if_neg h, find?_append_one_self]
    have hnone : st.find? (fun m => m.id == n.id) = none := by
      rw [List.find?_eq_none]
      intro m hm hc
      exact h (List.any_eq_true.mpr ⟨m, hm, hc⟩)
    rw [hnone]
    rfl

theorem find?_map_upsert_other (n : Note) (x : String) (hx : x ≠ n.id) :
    ∀ st : List Note,
      (st.map (fun m => if m.id == n.id then n else m)).find?
          (fun m => m.id == x) =
        st.find? (fun m => m.id == x)
  | [] => by simp
  | m :: rest => by
    have hnx : (n.id == x) = false := beq_id_false (fun hc => hx hc.symm)
    rw [List.map_cons]
    by_cases hm : (m.id == n.id) = true
    · have hmx : (m.id == x) = false := by
        have hmn : m.id = n.id := by simpa using hm
        rw [hmn]; exact hnx
      rw [if_pos hm, find?_cons_false _ hnx, find?_cons_false _ hmx]
      exact find?_map_upsert_other n x hx rest
    · rw [Bool.not_eq_true] at hm
      rw [if_neg (by simp [hm])]
      by_cases hmx : (m.id == x) = true
      · rw [find?_cons_true _ hmx, find?_cons_true _ hmx]
      · rw [Bool.not_eq_true] at hmx
        rw [find?_cons_false _ hmx, find?_cons_false _ hmx]
        exact find?_map_upsert_other n x hx rest

theorem find?_append_one_other (n : Note) (x : String) (hx : x ≠ n.id) :
    ∀ st : List Note,
      (st ++ [n]).find? (fun m => m.id == x) = st.find? (fun m => m.id == x)
  | [] => by
    have hnx : (n.id == x) = false := beq_id_false (fun hc => hx hc.symm)
    simp [List.find?, hnx]
  | m :: rest => by
    rw [List.cons_append]
    by_cases hmx : (m.id == x) = true
    · rw [find?_cons_true _ hmx, find?_cons_true _ hmx]
    · rw [Bool.not_eq_true] at hmx
      rw [find?_cons_false _ hmx, find?_cons_false _ hmx]
      exact find?_append_one_other n x hx rest

/-- `saveNote st n` does not change what the store holds at any key other than
`n.id`. -/
theorem find?_saveNote_other (st : List Note) (n : Note) (x : String)
    (hx : x ≠ n.id) :
    (saveNote st n).find? (fun m => m.id == x) =
      st.find? (fun m => m.id == x) := by
  unfold saveNote
  by_cases h : st.any (fun m => m.id == n.id)
  · rw [if_pos h]
    exact find?_map_upsert_other n x hx st
  · rw [if_neg h]
    exact find?_append_one_other n x hx st
/-!
## Pull + merge (`syncFromSupabase`, `src/App.tsx` second document, lines 300-342)

The loop builds `localMap` once from the local notes and then, for each fetched
remote note, writes the remote note iff it is locally absent or strictly newer
(`!local || note.updatedAt > local.updatedAt`).  The IndexedDB store is keyed
by `id`, so the local list has at most one record per `id` and `Map.get`
coincides with `List.find?`.
-/

/-- One iteration of the merge loop of `syncFromSupabase`. -/
def mergeStep (localNotes : List Note) (st : List Note) (note : Note) :
    List Note :=
  match localNotes.find? (fun m => m.id == note.id) with
  | none => saveNote st note
  | some l => if note.updatedAt > l.updatedAt then saveNote st note else st

/-- The pull + merge phase of `syncFromSupabase`: fold the merge step over the
fetched remote notes, starting from the local store. -/
def syncFromSupabase (localNotes remoteNotes : List Note) : List Note :=
  remoteNotes.foldl (mergeStep localNotes) localNotes

theorem mergeStep_of_none (L st : List Note) (note : Note)
    (h : L.find? (fun m => m.id == note.id) = none) :
    mergeStep L st note = saveNote st note := by
  unfold mergeStep
  rw [h]

theorem mergeStep_of_some (L st : List Note) (note l : Note)
    (h : L.find? (fun m => m.id == note.id) = some l) :
    mergeStep L st note =
      if note.updatedAt > l.updatedAt then saveNote st note else st := by
  unfold mergeStep
  rw [h]

theorem find?_mergeStep_other (L st : List Note) (note : Note) (x : String)
    (hx : x ≠ note.id) :
    (mergeStep L st note).find? (fun m => m.id == x) =
      st.find? (fun m => m.id == x) := by
  unfold mergeStep
  cases L.find? (fun m => m.id == note.id) with
  | none => exact find?_saveNote_other st note x hx
  | some l =>
    show (if note.updatedAt > l.updatedAt then saveNote st note else st).find?
        (fun m => m.id == x) = st.find? (fun m => m.id == x)
    by_cases hlt : note.updatedAt > l.updatedAt
    · rw [if_pos hlt]
      exact find?_saveNote_other st note x hx
    · rw [if_neg hlt]

theorem find?_foldl_mergeStep_other (L : List Note) (x : String) :
    ∀ (rs : List Note) (st : List Note), x ∉ rs.map Note.id →
      (rs.foldl (mergeStep L) st).find? (fun m => m.id == x) =
        st.find? (fun m => m.id == x)
  | [], st, _ => rfl
  | r :: rest, st, hx => by
    rw [List.foldl_cons]
    have hxr : x ≠ r.id := by
      intro hc
      exact hx (by rw [List.map_cons, hc]; exact List.mem_cons_self _ _)
    have hxrest : x ∉ rest.map Note.id := by
      intro hc
      exact hx (by rw [List.map_cons]; exact List.mem_cons_of_mem _ hc)
    rw [find?_foldl_mergeStep_other L x rest (mergeStep L st r) hxrest]
    exact find?_mergeStep_other L st r x hxr
/-- C1: pull merge is last-writer-wins by `updatedAt`.  For every fetched
remote record: if no local record shares its `id` the remote record is written
to the Entity Store; if a local record exists and the remote `updatedAt` is
strictly greater the local record is overwritten by the remote one; and if the
remote `updatedAt` is less than or equal (ties included) the local record is
left unchanged. -/
theorem pull_merge_last_writer_wins (localNotes remoteNotes : List Note)
    (hR : (remoteNotes.map Note.id).Nodup) (r : Note) (hr : r ∈ remoteNotes) :
    (localNotes.find? (fun m => m.id == r.id) = none →
        (syncFromSupabase localNotes remoteNotes).find? (fun m => m.id == r.id)
          = some r)
    ∧ (∀ l, localNotes.find? (fun m => m.id == r.id) = some l →
        (r.updatedAt > l.updatedAt →
          (syncFromSupabase localNotes remoteNotes).find?
            (fun m => m.id == r.id) = some r)
        ∧ (r.updatedAt ≤ l.updatedAt →
          (syncFromSupabase localNotes remoteNotes).find?
            (fun m => m.id == r.id) = some l)) := by
  obtain ⟨pre, post, rfl⟩ := List.append_of_mem hr
  have hmap : (pre.map Note.id ++ r.id :: post.map Note.id).Nodup := by
    simpa using hR
  have hnodup := List.nodup_append.mp hmap
  have hnotpre : r.id ∉ pre.map Note.id := by
    intro hc
    exact hnodup.2.2 hc (List.mem_cons_self _ _)
  have hnotpost : r.id ∉ post.map Note.id :=
    (List.nodup_cons.mp hnodup.2.1).1
  unfold syncFromSupabase
  rw [List.foldl_append, List.foldl_cons]
  have hpost := fun st =>
    find?_foldl_mergeStep_other localNotes r.id post st hnotpost
  have hpre :=
    find?_foldl_mergeStep_other localNotes r.id pre localNotes hnotpre
  constructor
  · intro hnone
    rw [hpost, mergeStep_of_none _ _ _ hnone, find?_saveNote_self]
  · intro l hl
    constructor
    · intro hgt
      rw [hpost, mergeStep_of_some _ _ _ _ hl, if_pos hgt, find?_saveNote_self]
    · intro hle
      rw [hpost, mergeStep_of_some _ _ _ _ hl, if_neg (not_lt.mpr hle), hpre]
      exact hl

/-- Concrete notes for witnesses: a local record and two remote versions. -/
def wLocal : Note := Note.mk "n1" "local" "body" "bg-white" 40 100

def wRemote : Note := Note.mk "n1" "remote" "body" "bg-white" 40 150

def wRemoteOld : Note := Note.mk "n1" "remote-old" "body" "bg-white" 40 90

/-- Witness for C1 at the spec's own example: local `updatedAt = 100`, remote
`updatedAt = 150` merges to the remote record; remote `updatedAt = 90` keeps
the local record. -/
theorem pull_merge_last_writer_wins_witness :
    (([wRemote].map Note.id).Nodup ∧ wRemote ∈ [wRemote]
      ∧ [wLocal].find? (fun m => m.id == wRemote.id) = some wLocal
      ∧ wRemote.updatedAt > wLocal.updatedAt
      ∧ (syncFromSupabase [wLocal] [wRemote]).find?
          (fun m => m.id == wRemote.id) = some wRemote)
    ∧ (wRemoteOld.updatedAt ≤ wLocal.updatedAt
      ∧ (syncFromSupabase [wLocal] [wRemoteOld]).find?
          (fun m => m.id == wRemoteOld.id) = some wLocal) :=
  ⟨⟨by decide, by decide, by decide, by decide,
      ((pull_merge_last_writer_wins [wLocal] [wRemote] (by decide) wRemote
        (by decide)).2 wLocal (by decide)).1 (by decide)⟩,
    ⟨by decide,
      ((pull_merge_last_writer_wins [wLocal] [wRemoteOld] (by decide) wRemoteOld
        (by decide)).2 wLocal (by decide)).2 (by decide)⟩⟩
/-!
## The Operation Log (sync queue)

`SyncOperation` mirrors the `SyncOperation` interface shared by the IndexedDB
services: `id` (the IndexedDB key, playing the role of the spec's `sequence`),
`operation` (`'create' | 'update' | 'delete'`), `data` (a full note for
create/update, the bare note id for delete), `timestamp`.
-/

inductive OpKind where
  | create
  | update
  | delete
deriving DecidableEq, Repr

/-- The `data: any` field: a full `Note` for create/update, a bare id string
for delete. -/
inductive OpData where
  | note (n : Note)
  | bareId (id : String)
deriving DecidableEq, Repr

structure SyncOperation where
  id : Nat
  operation : OpKind
  data : OpData
  timestamp : Nat
deriving DecidableEq, Repr

/-- The `sync-queue` object store of `src/unnamed/part_003` (first document):
`keyPath: 'id', autoIncrement: true`.  `nextKey` is the state of the IndexedDB
key generator, which is not reset by `clear()`. -/
structure SyncQueueAuto where
  entries : List SyncOperation
  nextKey : Nat
deriving DecidableEq, Repr

namespace IDBAuto

/-- Embeds `addToSyncQueue` of `src/unnamed/part_003` — `store.add(operation)` on the
auto-incrementing store: the key generator assigns the next key and the entry
is appended (in `getAll` key order). -/
def addToSyncQueue (q : SyncQueueAuto) (operation : OpKind) (d : OpData)
    (ts : Nat) : SyncQueueAuto :=
  SyncQueueAuto.mk (q.entries ++ [SyncOperation.mk q.nextKey operation d ts])
    (q.nextKey + 1)

/-- Embeds `getSyncQueue` — `store.getAll()`: all entries in ascending key order. -/
def getSyncQueue (q : SyncQueueAuto) : List SyncOperation :=
  q.entries

/-- Embeds `clearSyncQueue` — `store.clear()`: removes every entry at once; the key
generator is untouched. -/
def clearSyncQueue (q : SyncQueueAuto) : SyncQueueAuto :=
  SyncQueueAuto.mk [] q.nextKey

end IDBAuto

/-!
## Push phase (`syncToSupabase`, `src/App.tsx` second document, lines 256-297)

The function reads the whole queue (peek), replays each entry against Supabase
in a `for` loop inside one `try` block, and calls `clearSyncQueue` only after
the loop finishes.  An `await`ed remote call that fails (`RemoteUnavailable`)
throws, so the `catch` aborts the remaining loop and the queue is left exactly
as it was.  `pushOk op = false` models the remote call for `op` throwing.
-/

/-- The `for (const op of queue)` loop body chain: returns whether the loop ran
to completion, paired with the list of entries actually attempted, in order. -/
def pushLoop (pushOk : SyncOperation → Bool) :
    List SyncOperation → Bool × List SyncOperation
  | [] => (true, [])
  | op :: rest =>
    if pushOk op then
      ((pushLoop pushOk rest).1, op :: (pushLoop pushOk rest).2)
    else
      (false, [op])

namespace NotesService

/-- Embeds `syncToSupabase`: skip unless configured and online; otherwise drain the
queue and clear it only if every entry was pushed; a throw leaves the queue
untouched. -/
def syncToSupabase (pushOk : SyncOperation → Bool)
    (configured online : Bool) (q : SyncQueueAuto) : SyncQueueAuto :=
  if configured && online then
    if (pushLoop pushOk (IDBAuto.getSyncQueue q)).1 then
      IDBAuto.clearSyncQueue q
    else q
  else q

end NotesService

theorem pushLoop_fst_eq_all (pushOk : SyncOperation → Bool) :
    ∀ l : List SyncOperation, (pushLoop pushOk l).1 = l.all pushOk
  | [] => rfl
  | op :: rest => by
    unfold pushLoop
    by_cases h : pushOk op = true
    · rw [if_pos h]
      simp [List.all_cons, h, pushLoop_fst_eq_all pushOk rest]
    · rw [Bool.not_eq_true] at h
      rw [if_neg (by simp [h])]
      simp [List.all_cons, h]

theorem pushLoop_snd_take (pushOk : SyncOperation → Bool) :
    ∀ (l : List SyncOperation) (i : Nat) (hi : i < l.length),
      pushOk (l.get ⟨i, hi⟩) = false →
      (∀ j (hj : j < i), pushOk (l.get ⟨j, hj.trans hi⟩) = true) →
      (pushLoop pushOk l).2 = l.take (i + 1)
  | op :: rest, 0, _, hfail, _ => by
    unfold pushLoop
    rw [if_neg (by simp [show pushOk op = false from hfail])]
    rfl
  | op :: rest, i + 1, hi, hfail, hpre => by
    have hop : pushOk op = true := hpre 0 (Nat.succ_pos i)
    unfold pushLoop
    rw [if_pos hop]
    have hi' : i < rest.length := Nat.lt_of_succ_lt_succ hi
    have hrest :=
      pushLoop_snd_take pushOk rest i hi' hfail
        (fun j hj => hpre (j + 1) (Nat.succ_lt_succ hj))
    rw [List.take_succ_cons]
    rw [show (pushLoop pushOk rest).2 = rest.take (i + 1) from hrest]

/-- C3: the push phase processes Operation Log entries in queue (sequence)
order; when the entry at position `i` fails with `RemoteUnavailable` and all
earlier entries succeeded, exactly the first `i + 1` entries were attempted —
no later entry is reached — and the Operation Log after the cycle is exactly
what it was before. -/
theorem push_order_and_abort (pushOk : SyncOperation → Bool) (q : SyncQueueAuto)
    (i : Nat) (hi : i < q.entries.length)
    (hfail : pushOk (q.entries.get ⟨i, hi⟩) = false)
    (hpre : ∀ j (hj : j < i), pushOk (q.entries.get ⟨j, hj.trans hi⟩) = true) :
    (pushLoop pushOk q.entries).2 = q.entries.take (i + 1)
    ∧ NotesService.syncToSupabase pushOk true true q = q := by
  refine ⟨pushLoop_snd_take pushOk q.entries i hi hfail hpre, ?_⟩
  have hall : q.entries.all pushOk = false := by
    cases hall : q.entries.all pushOk
    · rfl
    · have := List.all_eq_true.mp hall _ (q.entries.get_mem i hi)
      rw [hfail] at this
      exact absurd this (by simp)
  unfold NotesService.syncToSupabase
  rw [show (true && true) = true from rfl, if_pos rfl]
  unfold IDBAuto.getSyncQueue
  rw [pushLoop_fst_eq_all, hall]
  rfl

/-- Concrete queue for the C3 witness: the first entry's push fails, the
second is never attempted. -/
def opA : SyncOperation := SyncOperation.mk 1 OpKind.create (OpData.bareId "a") 10

def opB : SyncOperation := SyncOperation.mk 2 OpKind.update (OpData.bareId "a") 11

def qAB : SyncQueueAuto := SyncQueueAuto.mk [opA, opB] 3

def pushOkSkipA (op : SyncOperation) : Bool := op.id == 2

/-- Witness for C3: with a two-entry queue whose first push fails, only the
first entry is attempted and the queue is unchanged. -/
theorem push_order_and_abort_witness :
    (0 < qAB.entries.length) ∧ (pushOkSkipA opA = false)
    ∧ ((pushLoop pushOkSkipA qAB.entries).2 = qAB.entries.take 1
       ∧ NotesService.syncToSupabase pushOkSkipA true true qAB = qAB) :=
  ⟨by decide, by decide,
    push_order_and_abort pushOkSkipA qAB 0 (by decide) (by decide)
      (fun j hj => absurd hj (Nat.not_lt_zero j))⟩

/-- C4: the Operation Log is only ever emptied wholesale: one push cycle either
leaves the queue exactly as it was, or clears it in one step with every queued
entry having been pushed successfully; no partial removal occurs. -/
theorem log_clear_all_or_nothing (pushOk : SyncOperation → Bool)
    (configured online : Bool) (q : SyncQueueAuto) :
    NotesService.syncToSupabase pushOk configured online q = q
    ∨ (q.entries.all pushOk = true
       ∧ NotesService.syncToSupabase pushOk configured online q
           = IDBAuto.clearSyncQueue q) := by
  unfold NotesService.syncToSupabase
  cases hco : configured && online
  · left
    rw [if_neg (by simp)]
  · rw [if_pos rfl]
    cases hloop : (pushLoop pushOk (IDBAuto.getSyncQueue q)).1
    · left
      rw [if_neg (by simp)]
    · right
      refine ⟨?_, ?_⟩
      · rw [← pushLoop_fst_eq_all pushOk q.entries]
        exact hloop
      · rw [if_pos rfl]
/-!
## The notesService mutations (`src/App.tsx` second document, lines 344-519)

Each mutation writes the Entity Store first, then — only if Supabase is
configured — either attempts the matching remote call (when online; a throw
queues the operation) or queues the operation directly (when offline).
`RemoteCall` records which Supabase calls were attempted, by target id.
-/

inductive RemoteCall where
  | insertCall (id : String)
  | updateCall (id : String)
  | deleteCall (id : String)
deriving DecidableEq, Repr

/-- Alias for the store-level `indexedDBService.deleteNote`, so the
service-level `NotesService.deleteNote` below can call it. -/
def idbDeleteNote (st : List Note) (id : String) : List Note :=
  deleteNote st id

namespace NotesService

/-- Embeds `notesService.createNote` (lines 361-403).  `newId` is the `uuidv4()`
result; `tc`, `tu`, `tq` are the successive `Date.now()` results for
`createdAt`, `updatedAt` and the queue entry's `timestamp`; `insertOk = false`
models the awaited Supabase insert throwing, which the `catch` turns into a
queued create. -/
def createNote (configured online insertOk : Bool)
    (title content color newId : String) (tc tu tq : Nat)
    (st : List Note) (q : SyncQueueAuto) :
    Note × List Note × SyncQueueAuto × List RemoteCall :=
  let newNote : Note := Note.mk newId title content color tc tu
  let st2 := saveNote st newNote
  if configured && online then
    if insertOk then
      (newNote, st2, q, [RemoteCall.insertCall newId])
    else
      (newNote, st2,
        IDBAuto.addToSyncQueue q OpKind.create (OpData.note newNote) tq,
        [RemoteCall.insertCall newId])
  else if configured then
    (newNote, st2,
      IDBAuto.addToSyncQueue q OpKind.create (OpData.note newNote) tq, [])
  else
    (newNote, st2, q, [])

/-- Embeds `notesService.updateNote` (lines 406-448): look the id up first and return
`null` if absent; otherwise write the updated record (preserving
`createdAt`), then handle the remote exactly as in `createNote`. -/
def updateNote (configured online updateOk : Bool)
    (id title content color : String) (tu tq : Nat)
    (st : List Note) (q : SyncQueueAuto) :
    Option Note × List Note × SyncQueueAuto × List RemoteCall :=
  match st.find? (fun n => n.id == id) with
  | none => (none, st, q, [])
  | some existingNote =>
    let updatedNote : Note :=
      Note.mk id title content color existingNote.createdAt tu
    let st2 := saveNote st updatedNote
    if configured && online then
      if updateOk then
        (some updatedNote, st2, q, [RemoteCall.updateCall id])
      else
        (some updatedNote, st2,
          IDBAuto.addToSyncQueue q OpKind.update (OpData.note updatedNote) tq,
          [RemoteCall.updateCall id])
    else if configured then
      (some updatedNote, st2,
        IDBAuto.addToSyncQueue q OpKind.update (OpData.note updatedNote) tq, [])
    else
      (some updatedNote, st2, q, [])

/-- Embeds `notesService.deleteNote` (lines 451-477): delete locally (always returns
`true`), then handle the remote as above. -/
def deleteNote (configured online deleteOk : Bool) (id : String) (tq : Nat)
    (st : List Note) (q : SyncQueueAuto) :
    Bool × List Note × SyncQueueAuto × List RemoteCall :=
  let st2 := idbDeleteNote st id
  if configured && online then
    if deleteOk then
      (true, st2, q, [RemoteCall.deleteCall id])
    else
      (true, st2,
        IDBAuto.addToSyncQueue q OpKind.delete (OpData.bareId id) tq,
        [RemoteCall.deleteCall id])
  else if configured then
    (true, st2,
      IDBAuto.addToSyncQueue q OpKind.delete (OpData.bareId id) tq, [])
  else
    (true, st2, q, [])

/-- Embeds `notesService.updateNoteColor` (lines 480-519): return `false` if the id
is absent; otherwise write the recolored record (spread keeps `id`, `title`,
`content`, `createdAt`; `updatedAt` is set to now), then handle the remote as
above (queued as an `update`). -/
def updateNoteColor (configured online updateOk : Bool)
    (id color : String) (tu tq : Nat)
    (st : List Note) (q : SyncQueueAuto) :
    Bool × List Note × SyncQueueAuto × List RemoteCall :=
  match st.find? (fun n => n.id == id) with
  | none => (false, st, q, [])
  | some existingNote =>
    let updatedNote : Note :=
      Note.mk existingNote.id existingNote.title existingNote.content color
        existingNote.createdAt tu
    let st2 := saveNote st updatedNote
    if configured && online then
      if updateOk then
        (true, st2, q, [RemoteCall.updateCall id])
      else
        (true, st2,
          IDBAuto.addToSyncQueue q OpKind.update (OpData.note updatedNote) tq,
          [RemoteCall.updateCall id])
    else if configured then
      (true, st2,
        IDBAuto.addToSyncQueue q OpKind.update (OpData.note updatedNote) tq, [])
    else
      (true, st2, q, [])

end NotesService

/-- C5: offline create — with Supabase configured and reachability false,
`createNote` returns the freshly built record, attempts no remote call, the
record is visible via `getAllNotes` on the resulting Entity Store, and exactly
one `Create` entry for that record is appended to the Operation Log. -/
theorem offline_create (insertOk : Bool) (title content color newId : String)
    (tc tu tq : Nat) (st : List Note) (q : SyncQueueAuto) :
    (NotesService.createNote true false insertOk title content color newId
        tc tu tq st q).1 = Note.mk newId title content color tc tu
    ∧ (NotesService.createNote true false insertOk title content color newId
        tc tu tq st q).2.2.2 = []
    ∧ (NotesService.createNote true false insertOk title content color newId
        tc tu tq st q).1 ∈
      getAllNotes (NotesService.createNote true false insertOk title content
        color newId tc tu tq st q).2.1
    ∧ (NotesService.createNote true false insertOk title content color newId
        tc tu tq st q).2.2.1.entries =
      q.entries ++ [SyncOperation.mk q.nextKey OpKind.create
        (OpData.note (Note.mk newId title content color tc tu)) tq] :=
  ⟨rfl, rfl,
    (mem_getAllNotes _ _).mpr (mem_saveNote_self st _), rfl⟩

/-- C9: pure local mode — with Supabase not configured, every mutation
(create, update, delete, recolor) applies its Entity Store write and stops:
the Operation Log is untouched and no remote call is attempted, regardless of
reachability. -/
theorem pure_local_mode (online ok : Bool)
    (title content color newId id : String) (tc tu tq : Nat)
    (st : List Note) (q : SyncQueueAuto) :
    (NotesService.createNote false online ok title content color newId
          tc tu tq st q
        = (Note.mk newId title content color tc tu,
           saveNote st (Note.mk newId title content color tc tu), q, []))
    ∧ (∀ ex, st.find? (fun n => n.id == id) = some ex →
        NotesService.updateNote false online ok id title content color tu tq st q
          = (some (Note.mk id title content color ex.createdAt tu),
             saveNote st (Note.mk id title content color ex.createdAt tu),
             q, []))
    ∧ (NotesService.deleteNote false online ok id tq st q
        = (true, idbDeleteNote st id, q, []))
    ∧ (∀ ex, st.find? (fun n => n.id == id) = some ex →
        NotesService.updateNoteColor false online ok id color tu tq st q
          = (true,
             saveNote st (Note.mk ex.id ex.title ex.content color
               ex.createdAt tu), q, [])) := by
  refine ⟨rfl, ?_, rfl, ?_⟩
  · intro ex hex
    unfold NotesService.updateNote
    rw [hex]
    rfl
  · intro ex hex
    unfold NotesService.updateNoteColor
    rw [hex]
    rfl

/-- Witness for C9: a one-note store, Supabase not configured, reachability
true; the recolor mutation is applied locally with no queue entry and no
remote call. -/
theorem pure_local_mode_witness :
    ([wLocal].find? (fun n => n.id == "n1") = some wLocal)
    ∧ NotesService.updateNoteColor false true true "n1" "bg-red-100" 200 201
        [wLocal] (SyncQueueAuto.mk [] 1)
      = (true,
         saveNote [wLocal] (Note.mk wLocal.id wLocal.title wLocal.content
           "bg-red-100" wLocal.createdAt 200),
         SyncQueueAuto.mk [] 1, []) :=
  ⟨by decide,
    ((pure_local_mode true true "t" "c" "bg-red-100" "x" "n1" 0 200 201
        [wLocal] (SyncQueueAuto.mk [] 1)).2.2.2 wLocal (by decide))⟩

/-- C10: absent-id mutations are rejected without side effects — for an id not
in the Entity Store, `updateNote` returns `null` and `updateNoteColor` returns
`false`, and both leave the store and the Operation Log unchanged and attempt
no remote call. -/
theorem absent_id_rejected (configured online ok : Bool)
    (id title content color : String) (tu tq : Nat)
    (st : List Note) (q : SyncQueueAuto)
    (h : st.find? (fun n => n.id == id) = none) :
    NotesService.updateNote configured online ok id title content color tu tq st q
        = (none, st, q, [])
    ∧ NotesService.updateNoteColor configured online ok id color tu tq st q
        = (false, st, q, []) := by
  unfold NotesService.updateNote NotesService.updateNoteColor
  rw [h]
  exact ⟨rfl, rfl⟩

/-- Witness for C10: id `"zzz"` is absent from the one-note store; both
mutations are rejected with the store, queue and remote untouched. -/
theorem absent_id_rejected_witness :
    ([wLocal].find? (fun n => n.id == "zzz") = none)
    ∧ (NotesService.updateNote true true true "zzz" "t" "c" "col" 5 6
          [wLocal] (SyncQueueAuto.mk [] 1)
        = (none, [wLocal], SyncQueueAuto.mk [] 1, [])
      ∧ NotesService.updateNoteColor true true true "zzz" "col" 5 6
          [wLocal] (SyncQueueAuto.mk [] 1)
        = (false, [wLocal], SyncQueueAuto.mk [] 1, [])) :=
  ⟨by decide,
    absent_id_rejected true true true "zzz" "t" "c" "col" 5 6 [wLocal]
      (SyncQueueAuto.mk [] 1) (by decide)⟩
/-!
## The legacy service (`src/services/notesService.ts`)

An earlier snapshot of the same service.  Its note type (`Note` in
`src/unnamed/part_000`, third document) has no `updatedAt` field; its pull
(`syncFromSupabase`, lines 52-82) deletes every local note and then saves the
fetched remote set; its `updateNote` (lines 141-178) performs no existence
check and sets `createdAt: Date.now()` (source comment: `// Update
timestamp`), as does its `updateNoteColor` (lines 210-249).  Only the local
Entity Store effect is embedded below; the Supabase/queue branches of these
functions never touch the local store.
-/

namespace Legacy

/-- The legacy `Note` shape: no `updatedAt`. -/
structure LNote where
  id : String
  title : String
  content : String
  color : String
  createdAt : Nat
deriving DecidableEq, Repr

/-- Embeds `indexedDBService.saveNote` at the legacy note type (keyed `put`). -/
def saveNote (st : List LNote) (n : LNote) : List LNote :=
  if st.any (fun m => m.id == n.id) then
    st.map (fun m => if m.id == n.id then n else m)
  else
    st ++ [n]

/-- Embeds `indexedDBService.deleteNote` at the legacy note type. -/
def deleteNote (st : List LNote) (id : String) : List LNote :=
  st.filter (fun m => !(m.id == id))

/-- Legacy `syncFromSupabase` (lines 71-78): `for (const note of localNotes)
await indexedDBService.deleteNote(note.id)` and then `for (const note of
supabaseNotes) await indexedDBService.saveNote(note)`. -/
def syncFromSupabase (localNotes remoteNotes : List LNote) : List LNote :=
  let cleared := localNotes.foldl (fun st n => deleteNote st n.id) localNotes
  remoteNotes.foldl saveNote cleared

/-- Legacy `updateNote` (local write path, lines 142-149): build
`{id, ...note, createdAt: Date.now()}` with no existence check and save it. -/
def updateNote (id title content color : String) (now : Nat)
    (st : List LNote) : LNote × List LNote :=
  let updatedNote : LNote := LNote.mk id title content color now
  (updatedNote, saveNote st updatedNote)

end Legacy

/-- A legacy local-only note used as a failing input. -/
def legacyNote : Legacy.LNote := Legacy.LNote.mk "a" "t" "c" "bg-white" 100

/-- C2 (counterexample on `src/services/notesService.ts`): the legacy pull
deletes local records absent from the remote fetch — with one local-only note
and an empty remote fetch, the note is gone after `syncFromSupabase`. -/
theorem legacy_pull_deletes_local_only_note :
    Legacy.syncFromSupabase [legacyNote] [] = []
    ∧ legacyNote ∉ Legacy.syncFromSupabase [legacyNote] [] := by
  constructor
  · rfl
  · intro h
    simp [Legacy.syncFromSupabase, Legacy.deleteNote, legacyNote] at h

/-- C7 (counterexample on `src/services/notesService.ts`): legacy `updateNote`
rewrites `createdAt` — updating a note created at time `100` at time `200`
stores it with `createdAt = 200`. -/
theorem legacy_update_rewrites_createdAt :
    legacyNote.createdAt = 100
    ∧ ((Legacy.updateNote "a" "t2" "c2" "bg-white" 200 [legacyNote]).2.find?
        (fun m => m.id == "a")).map Legacy.LNote.createdAt = some 200 := by
  exact ⟨rfl, rfl⟩

/-!
## The `part_002` IndexedDB service (`KeepCloneDB`)

Its `syncQueue` object store is keyed by `id` with **no** key generator;
`addToSyncQueue` sets `operation.id = Date.now()` and uses `store.put`, so two
enqueues in the same millisecond write the same key and the second overwrites
the first.  `getAll` returns entries in ascending key order, so the queue is
modelled as a list kept sorted by `id`, into which `put` inserts or replaces.

Its `getAllNotes`/`saveNote` wrap everything in `try`/`catch`: a failure of
the `await`ed `initDB()` (or of transaction creation) is caught, logged with
`console.error`, and the call then resolves as if it had succeeded
(`saveNote` resolves `void`, `getAllNotes` returns `[]`); only a rejection of
the inner request promise propagates, because it is returned without `await`.
`IDBOutcome` selects which of the three paths the environment takes.
-/

/-- Alias for the store-level `saveNote`, callable from inside `IDBPut`. -/
def idbSaveNote (st : List Note) (n : Note) : List Note :=
  saveNote st n

/-- Alias for the store-level `getAllNotes`, callable from inside `IDBPut`. -/
def idbGetAllNotes (st : List Note) : List Note :=
  getAllNotes st

/-- Which failure, if any, the durable-storage environment produces during one
call: none, a database-open/transaction failure (reaches the `catch`), or an
IndexedDB request failure (rejects the returned promise). -/
inductive IDBOutcome where
  | ok
  | initErr
  | reqErr
deriving DecidableEq, Repr

namespace IDBPut

/-- IndexedDB `put` on the key-sorted `syncQueue` store: insert by ascending
key, replacing an existing entry with the same key. -/
def putSorted : List SyncOperation → SyncOperation → List SyncOperation
  | [], op => [op]
  | e :: rest, op =>
    if op.id < e.id then op :: e :: rest
    else if op.id = e.id then op :: rest
    else e :: putSorted rest op

/-- Embeds `addToSyncQueue` (`src/unnamed/part_002`, lines 98-113):
`operation.id = Date.now(); store.put(operation)`. -/
def addToSyncQueue (entries : List SyncOperation) (now : Nat)
    (operation : OpKind) (d : OpData) (ts : Nat) : List SyncOperation :=
  putSorted entries (SyncOperation.mk now operation d ts)

/-- Embeds `saveNote` (`src/unnamed/part_002`, lines 62-80) under each storage
outcome: on success the keyed `put`; on an init/transaction failure the
`catch` logs and the call resolves successfully with nothing written; on a
request failure the returned promise rejects. -/
def saveNote (outcome : IDBOutcome) (st : List Note) (n : Note) :
    List Note × Except String Unit :=
  match outcome with
  | IDBOutcome.ok => (idbSaveNote st n, Except.ok ())
  | IDBOutcome.initErr => (st, Except.ok ())
  | IDBOutcome.reqErr => (st, Except.error "save failed")

/-- Embeds `getAllNotes` (`src/unnamed/part_002`, lines 40-60) under each storage
outcome: on an init/transaction failure the `catch` returns `[]` as if the
store were empty. -/
def getAllNotes (outcome : IDBOutcome) (st : List Note) :
    Except String (List Note) :=
  match outcome with
  | IDBOutcome.ok => Except.ok (idbGetAllNotes st)
  | IDBOutcome.initErr => Except.ok []
  | IDBOutcome.reqErr => Except.error "get failed"

end IDBPut

/-- C6 (counterexample on `src/unnamed/part_002`): two enqueues in the same
millisecond (`Date.now()` returning `5` twice) are assigned the **same** key
and the second `put` overwrites the first — the queue holds one entry, not
two, and the first operation is lost. -/
theorem same_millisecond_enqueue_overwrites :
    IDBPut.addToSyncQueue
        (IDBPut.addToSyncQueue [] 5 OpKind.create (OpData.bareId "a") 5)
        5 OpKind.update (OpData.bareId "a") 5
      = [SyncOperation.mk 5 OpKind.update (OpData.bareId "a") 5]
    ∧ SyncOperation.mk 5 OpKind.create (OpData.bareId "a") 5 ∉
        IDBPut.addToSyncQueue
          (IDBPut.addToSyncQueue [] 5 OpKind.create (OpData.bareId "a") 5)
          5 OpKind.update (OpData.bareId "a") 5 := by
  exact ⟨rfl, by decide⟩

/-- C8 (counterexample on `src/unnamed/part_002`): when opening the database
fails, `saveNote` writes nothing yet resolves successfully, and `getAllNotes`
resolves successfully with `[]` — the storage failure is swallowed and the
calls appear to succeed. -/
theorem storage_failure_swallowed :
    IDBPut.saveNote IDBOutcome.initErr [] wLocal = ([], Except.ok ())
    ∧ IDBPut.getAllNotes IDBOutcome.initErr [wLocal] = Except.ok [] := by
  exact ⟨rfl, rfl⟩
